import Mathlib

/-!
# pewinput: a thin layer over the Linux uinput facility

Shallow embedding of `src/pewinput.c`.  Every libc call the C code makes
(`ioctl`, `write`, `sleep`) is recorded, together with the value the kernel
returned for it, in a trace carried by an explicit `World`.  The kernel is an
arbitrary function from the history and the call to a return value, so every
statement below holds for every behaviour of the kernel, failing calls
included.
-/

namespace Pewinput

/-! ## Platform ABI constants (`<linux/input-event-codes.h>`, `<linux/input.h>`, `<linux/uinput.h>`) -/

/-- Modelled from the spec: platform ABI constant of the input-event headers, which are
not among the sources; value of the Linux UAPI. -/
def EV_SYN : Nat := 0x00
/-- Modelled from the spec: platform ABI constant (key/button events); Linux UAPI value. -/
def EV_KEY : Nat := 0x01
/-- Modelled from the spec: platform ABI constant (relative motion); Linux UAPI value. -/
def EV_REL : Nat := 0x02
/-- Modelled from the spec: platform ABI constant (absolute position); Linux UAPI value. -/
def EV_ABS : Nat := 0x03
/-- Modelled from the spec: platform ABI constant (miscellaneous); Linux UAPI value. -/
def EV_MSC : Nat := 0x04
/-- Modelled from the spec: platform ABI constant (switches); Linux UAPI value. -/
def EV_SW : Nat := 0x05
/-- Modelled from the spec: platform ABI constant (LEDs); Linux UAPI value. -/
def EV_LED : Nat := 0x11
/-- Modelled from the spec: platform ABI constant (sound); Linux UAPI value. -/
def EV_SND : Nat := 0x12
/-- Modelled from the spec: platform ABI constant (key repeat); Linux UAPI value. -/
def EV_REP : Nat := 0x14
/-- Modelled from the spec: platform ABI constant (force feedback); Linux UAPI value. -/
def EV_FF : Nat := 0x15
/-- Modelled from the spec: platform ABI constant (power); Linux UAPI value. -/
def EV_PWR : Nat := 0x16
/-- Modelled from the spec: platform ABI constant, the code of the synchronization
report; Linux UAPI value. -/
def SYN_REPORT : Nat := 0
/-- Modelled from the spec: platform ABI constant, the bus type "USB"; Linux UAPI value. -/
def BUS_USB : Nat := 0x03
/-- Modelled from the spec: platform ABI constant, the capacity in bytes of the name
buffer of `struct uinput_setup`; Linux UAPI value. -/
def UINPUT_MAX_NAME_SIZE : Nat := 80

/-- Modelled from the spec: the opcode encoding `_IOC(dir, type, nr, size)` of the
platform's generic device-control call (asm-generic layout: 8 bits nr, 8 bits type,
14 bits size, 2 bits direction). -/
def _IOC (dir type nr size : Nat) : Nat :=
  dir * 2 ^ 30 + size * 2 ^ 16 + type * 2 ^ 8 + nr
/-- Modelled from the spec: direction "no argument" of the opcode encoding. -/
def _IOC_NONE : Nat := 0
/-- Modelled from the spec: direction "user writes" of the opcode encoding. -/
def _IOC_WRITE : Nat := 1
/-- Modelled from the spec: the opcode family of uinput, the character U. -/
def UINPUT_IOCTL_BASE : Nat := 0x55
/-- Modelled from the spec: `sizeof(int)` on the platform. -/
def sizeof_int : Nat := 4
/-- Modelled from the spec: `sizeof(struct input_event)` on a 64-bit platform: a 16-byte
timestamp, two 16-bit fields and a 32-bit value. -/
def sizeof_input_event : Int := 24
/-- Modelled from the spec: `sizeof(struct uinput_setup)`: an 8-byte `struct input_id`,
the 80-byte name and a 32-bit `ff_effects_max`. -/
def sizeof_uinput_setup : Nat := 8 + UINPUT_MAX_NAME_SIZE + 4

/-- Modelled from the spec: opcode "instruct device creation". -/
def UI_DEV_CREATE : Nat := _IOC _IOC_NONE UINPUT_IOCTL_BASE 1 0
/-- Modelled from the spec: opcode "instruct device destruction". -/
def UI_DEV_DESTROY : Nat := _IOC _IOC_NONE UINPUT_IOCTL_BASE 2 0
/-- Modelled from the spec: opcode "perform device setup". -/
def UI_DEV_SETUP : Nat := _IOC _IOC_WRITE UINPUT_IOCTL_BASE 3 sizeof_uinput_setup
/-- Modelled from the spec: opcode "enable an event-type bit". -/
def UI_SET_EVBIT : Nat := _IOC _IOC_WRITE UINPUT_IOCTL_BASE 100 sizeof_int
/-- Modelled from the spec: opcode "enable a code bit" in the key namespace. -/
def UI_SET_KEYBIT : Nat := _IOC _IOC_WRITE UINPUT_IOCTL_BASE 101 sizeof_int
/-- Modelled from the spec: opcode "enable a code bit" in the relative-axis namespace. -/
def UI_SET_RELBIT : Nat := _IOC _IOC_WRITE UINPUT_IOCTL_BASE 102 sizeof_int
/-- Modelled from the spec: opcode "enable a code bit" in the absolute-axis namespace. -/
def UI_SET_ABSBIT : Nat := _IOC _IOC_WRITE UINPUT_IOCTL_BASE 103 sizeof_int
/-- Modelled from the spec: opcode "enable a code bit" in the miscellaneous namespace. -/
def UI_SET_MSCBIT : Nat := _IOC _IOC_WRITE UINPUT_IOCTL_BASE 104 sizeof_int
/-- Modelled from the spec: opcode "enable a code bit" in the LED namespace. -/
def UI_SET_LEDBIT : Nat := _IOC _IOC_WRITE UINPUT_IOCTL_BASE 105 sizeof_int
/-- Modelled from the spec: opcode "enable a code bit" in the sound namespace. -/
def UI_SET_SNDBIT : Nat := _IOC _IOC_WRITE UINPUT_IOCTL_BASE 106 sizeof_int
/-- Modelled from the spec: opcode "enable a code bit" in the force-feedback namespace. -/
def UI_SET_FFBIT : Nat := _IOC _IOC_WRITE UINPUT_IOCTL_BASE 107 sizeof_int
/-- Modelled from the spec: opcode "enable a code bit" in the switch namespace. -/
def UI_SET_SWBIT : Nat := _IOC _IOC_WRITE UINPUT_IOCTL_BASE 109 sizeof_int

/-! ## The system-call layer -/

/-- The record `struct input_event` written to the handle: the two timestamp fields,
then type, code and value. -/
structure input_event where
  tv_sec : Int
  tv_usec : Int
  type : Nat
  code : Nat
  value : Int
  deriving DecidableEq, Repr

/-- The third argument of a control call. -/
inductive IoctlArg where
  /-- the call has no third argument -/
  | absent
  /-- an integer passed by value -/
  | int (v : Nat)
  /-- a pointer to an object, given by the bytes of the object at the time of the call -/
  | ptr (obj : List Nat)
  deriving DecidableEq, Repr

/-- The calls `pewinput.c` makes into libc. -/
inductive Syscall where
  /-- the call `ioctl(fd, request, arg)` -/
  | sys_ioctl (fd : Int) (request : Nat) (arg : IoctlArg)
  /-- the call `write(fd, &event, sizeof(event))`: the whole record is the buffer -/
  | sys_write (fd : Int) (buf : input_event)
  /-- the call `sleep(seconds)` -/
  | sys_sleep (seconds : Nat)
  deriving DecidableEq, Repr

/-- One entry of the trace: a call and the value it returned. -/
structure Entry where
  call : Syscall
  ret : Int
  deriving DecidableEq, Repr

/-- The environment: the value a call returns, given everything that happened before. -/
abbrev Kernel := List Entry → Syscall → Int

/-- The state threaded through the program: the trace of calls made so far, and the
bytes that were stored beyond the end of the object they were addressed to. -/
structure World where
  trace : List Entry
  oob : List Nat
  deriving DecidableEq, Repr

/-- Performs a call: asks the kernel for the result and records both. -/
def syscall (k : Kernel) (c : Syscall) (w : World) : Int × World :=
  (k w.trace c, { w with trace := w.trace ++ [⟨c, k w.trace c⟩] })

/-- The libc function `ioctl`. -/
def ioctl (k : Kernel) (fd : Int) (request : Nat) (arg : IoctlArg) (w : World) : Int × World :=
  syscall k (.sys_ioctl fd request arg) w

/-- The libc function `write`, for a buffer holding one event record. -/
def write (k : Kernel) (fd : Int) (buf : input_event) (w : World) : Int × World :=
  syscall k (.sys_write fd buf) w

/-- The libc function `sleep`. -/
def sleep (k : Kernel) (seconds : Nat) (w : World) : Int × World :=
  syscall k (.sys_sleep seconds) w

/-! ## Local memory of `create_device` -/

/-- An object in memory (its bytes) together with the bytes stored past its end. -/
abbrev Mem := List Nat × List Nat

/-- Stores one byte at offset `off` of the object; past the end of the object the byte
lands outside it. -/
def store_byte (m : Mem) (off : Nat) (b : Nat) : Mem :=
  if off < m.1.length then (m.1.set off b, m.2) else (m.1, m.2 ++ [b])

/-- The libc function `memset(&obj, c, n)` on a fresh object of `n` bytes. -/
def memset (c n : Nat) : List Nat := List.replicate n c

/-- Stores a 16-bit field at offset `off` (little-endian). -/
def store_u16 (obj : List Nat) (off v : Nat) : List Nat :=
  (obj.set off (v % 256)).set (off + 1) (v / 256 % 256)

/-- The libc function `strcpy(dst, src)`: copies the characters of `src`, then the
terminating zero byte, to consecutive offsets starting at `dst`, with no bound. -/
def strcpy (m : Mem) (dst : Nat) : List Nat → Mem
  | [] => store_byte m dst 0
  | ch :: rest => strcpy (store_byte m dst ch) (dst + 1) rest

/-- Offset of `id.bustype` in `struct uinput_setup`. -/
def off_bustype : Nat := 0
/-- Offset of `id.vendor` in `struct uinput_setup`. -/
def off_vendor : Nat := 2
/-- Offset of `id.product` in `struct uinput_setup`. -/
def off_product : Nat := 4
/-- Offset of `id.version` in `struct uinput_setup`. -/
def off_version : Nat := 6
/-- Offset of `name` in `struct uinput_setup`. -/
def off_name : Nat := 8
/-- Offset of `ff_effects_max` in `struct uinput_setup`. -/
def off_ff_effects_max : Nat := 8 + UINPUT_MAX_NAME_SIZE

/-- Reads a 16-bit field at offset `off` (little-endian). -/
def u16_at (obj : List Nat) (off : Nat) : Nat :=
  obj.getD off 0 + 256 * obj.getD (off + 1) 0

/-- Reads a 32-bit field at offset `off` (little-endian). -/
def u32_at (obj : List Nat) (off : Nat) : Nat :=
  obj.getD off 0 + 256 * obj.getD (off + 1) 0 + 65536 * obj.getD (off + 2) 0
    + 16777216 * obj.getD (off + 3) 0

/-- The name buffer of a `struct uinput_setup` image. -/
def name_field (obj : List Nat) : List Nat :=
  (obj.drop off_name).take UINPUT_MAX_NAME_SIZE

/-- The string held in a buffer: the bytes before the first zero byte. -/
def c_string (buf : List Nat) : List Nat := buf.takeWhile (fun b => b ≠ 0)

/-! ## The functions of `pewinput.c` -/

/-- Source `enable_event` (pewinput.c:10-41).  `input_type0` is the indeterminate
initial content of the local variable `input_type`, which the switch leaves untouched
when no case matches. -/
def enable_event (k : Kernel) (input_type0 : Nat) (uinput_fd : Int)
    (event_type event_code : Nat) (w : World) : Int × World :=
  let sw : Nat × World :=
    if event_type = EV_KEY then
      (UI_SET_KEYBIT, (ioctl k uinput_fd UI_SET_EVBIT (.int EV_REP) w).2)
    else if event_type = EV_REL then (UI_SET_RELBIT, w)
    else if event_type = EV_ABS then (UI_SET_ABSBIT, w)
    else if event_type = EV_MSC then (UI_SET_MSCBIT, w)
    else if event_type = EV_SW then (UI_SET_SWBIT, w)
    else if event_type = EV_LED then (UI_SET_LEDBIT, w)
    else if event_type = EV_SND then (UI_SET_SNDBIT, w)
    else if event_type = EV_FF then (UI_SET_FFBIT, w)
    else (input_type0, w)
  let input_type := sw.1
  let w1 := (ioctl k uinput_fd UI_SET_EVBIT (.int event_type) sw.2).2
  ioctl k uinput_fd input_type (.int event_code) w1

/-- Source `create_device` (pewinput.c:43-55).  `name` is the C string passed in: its
characters, without the terminating zero byte. -/
def create_device (k : Kernel) (uinput_fd : Int) (name : List Nat) (w : World) : Int × World :=
  let usetup := memset 0 sizeof_uinput_setup
  let usetup := store_u16 usetup off_bustype BUS_USB
  let usetup := store_u16 usetup off_vendor 0x0
  let usetup := store_u16 usetup off_product 0x0
  let m := strcpy (usetup, w.oob) off_name name
  let w := { w with oob := m.2 }
  let w := (ioctl k uinput_fd UI_DEV_SETUP (.ptr m.1) w).2
  let r := ioctl k uinput_fd UI_DEV_CREATE .absent w
  let err := r.1
  let w := (sleep k 1 r.2).2
  (err, w)

/-- Source `send_event` (pewinput.c:57-66).  The function is `void`: the caller gets
nothing back, only the world changes. -/
def send_event (k : Kernel) (uinput_fd : Int) (event_type event_code : Nat)
    (event_value : Int) (w : World) : Unit × World :=
  let event : input_event :=
    { type := event_type, code := event_code, value := event_value, tv_sec := 0, tv_usec := 0 }
  ((), (write k uinput_fd event w).2)

/-- Source `flush` (pewinput.c:68-70). -/
def flush (k : Kernel) (uinput_fd : Int) (w : World) : Unit × World :=
  send_event k uinput_fd EV_SYN SYN_REPORT 0 w

/-- Source `destroy_device` (pewinput.c:72-74). -/
def destroy_device (k : Kernel) (uinput_fd : Int) (w : World) : Int × World :=
  ioctl k uinput_fd UI_DEV_DESTROY .absent w

/-- The world before anything happened. -/
def World.init : World := ⟨[], []⟩

/-- A kernel under which every call succeeds: a write reports the whole record written,
every other call returns 0. -/
def kernel_ok : Kernel := fun _ c =>
  match c with
  | .sys_write _ _ => sizeof_input_event
  | _ => 0

/-! ## What a trace declares -/

/-- The event types `enable_event` has a case for (the labels of its switch). -/
def supported_types : List Nat :=
  [EV_KEY, EV_REL, EV_ABS, EV_MSC, EV_SW, EV_LED, EV_SND, EV_FF]

/-- The table of the specification: the code-bit opcode (capability namespace) that
belongs to an event type, and no namespace for a type outside the table. -/
def namespace_of (event_type : Nat) : Option Nat :=
  if event_type = EV_KEY then some UI_SET_KEYBIT
  else if event_type = EV_REL then some UI_SET_RELBIT
  else if event_type = EV_ABS then some UI_SET_ABSBIT
  else if event_type = EV_MSC then some UI_SET_MSCBIT
  else if event_type = EV_SW then some UI_SET_SWBIT
  else if event_type = EV_LED then some UI_SET_LEDBIT
  else if event_type = EV_SND then some UI_SET_SNDBIT
  else if event_type = EV_FF then some UI_SET_FFBIT
  else none

/-- The calls of a trace, without their results. -/
def calls (trace : List Entry) : List Syscall := trace.map Entry.call

/-- The argument of a call, when the call is the control call `request` on `fd` with an
integer argument. -/
def bit_of (fd : Int) (request : Nat) : Syscall → Option Nat
  | .sys_ioctl fd1 request1 (.int v) => if fd1 = fd ∧ request1 = request then some v else none
  | _ => none

/-- The set of bits a trace declares on handle `fd` through the control call `request`. -/
def declared_bits (fd : Int) (request : Nat) (trace : List Entry) : Finset Nat :=
  ((calls trace).filterMap (bit_of fd request)).toFinset

/-- The set of event-type bits a trace declares on handle `fd`. -/
def declared_evbits (fd : Int) (trace : List Entry) : Finset Nat :=
  declared_bits fd UI_SET_EVBIT trace

/-- The capability (type, code) is in the declared set of handle `fd`: the type bit is
declared, and the code bit is declared in the namespace that belongs to the type. -/
def capability_present (fd : Int) (event_type event_code : Nat) (trace : List Entry) : Prop :=
  event_type ∈ declared_evbits fd trace ∧
    ∃ ns, namespace_of event_type = some ns ∧ event_code ∈ declared_bits fd ns trace

/-- Calls `enable_event(fd, EV_KEY, c)` for each code of the list, in order. -/
def enable_keys (k : Kernel) (input_type0 : Nat) (uinput_fd : Int) :
    List Nat → World → World
  | [], w => w
  | c :: cs, w => enable_keys k input_type0 uinput_fd cs (enable_event k input_type0 uinput_fd EV_KEY c w).2

/-- Calls `send_event` on each (type, code, value) triple of the list, in order. -/
def send_events (k : Kernel) (uinput_fd : Int) : List (Nat × Nat × Int) → World → World
  | [], w => w
  | e :: es, w => send_events k uinput_fd es (send_event k uinput_fd e.1 e.2.1 e.2.2 w).2

/-- A result of a libc call that reports failure. -/
def failed (r : Int) : Prop := r < 0

instance (r : Int) : Decidable (failed r) := by unfold failed; infer_instance

/-- The image of `struct uinput_setup` the specification asks for: bus type USB, vendor,
product and version zero, the name followed by zero bytes up to the end of the name
buffer, and `ff_effects_max` zero. -/
def setup_image (name : List Nat) : List Nat :=
  [BUS_USB, 0, 0, 0, 0, 0, 0, 0] ++ name
    ++ List.replicate (UINPUT_MAX_NAME_SIZE + 4 - name.length) 0

/-- The entries a call of a function added to the trace of the world it started in. -/
def added (before : World) (r : World) : List Entry := r.trace.drop before.trace.length

/-- The claim "failure whenever a call it issued failed": if some call the function added
to the trace failed, the function's result is a failure. -/
def reports_every_failure (before : World) (r : Int × World) : Prop :=
  (∃ e ∈ added before r.2, failed e.ret) → failed r.1

/-- A kernel that rejects every `UI_SET_EVBIT` call and accepts everything else. -/
def kernel_evbit_rejected : Kernel := fun _ c =>
  match c with
  | .sys_ioctl _ request _ => if request = UI_SET_EVBIT then -1 else 0
  | .sys_write _ _ => sizeof_input_event
  | .sys_sleep _ => 0

/-- A kernel that rejects every `UI_DEV_SETUP` call and accepts everything else. -/
def kernel_setup_rejected : Kernel := fun _ c =>
  match c with
  | .sys_ioctl _ request _ => if request = UI_DEV_SETUP then -1 else 0
  | .sys_write _ _ => sizeof_input_event
  | .sys_sleep _ => 0

/-- A kernel under which every write fails (full buffer, invalid handle). -/
def kernel_write_rejected : Kernel := fun _ c =>
  match c with
  | .sys_write _ _ => -1
  | _ => 0

/-! ## Shared lemmas -/

theorem calls_append (a b : List Entry) : calls (a ++ b) = calls a ++ calls b := by
  simp [calls]

theorem mem_declared_bits (fd : Int) (request v : Nat) (trace : List Entry) :
    v ∈ declared_bits fd request trace ↔ Syscall.sys_ioctl fd request (.int v) ∈ calls trace := by
  unfold declared_bits
  simp only [List.mem_toFinset, List.mem_filterMap]
  constructor
  · rintro ⟨c, hc, hv⟩
    cases c with
    | sys_ioctl fd1 r1 a =>
      cases a with
      | int u =>
        simp only [bit_of] at hv
        split at hv
        · rename_i h
          obtain ⟨rfl, rfl⟩ := h
          simp only [Option.some.injEq] at hv
          subst hv
          exact hc
        · simp at hv
      | absent => simp [bit_of] at hv
      | ptr o => simp [bit_of] at hv
    | sys_write f b => simp [bit_of] at hv
    | sys_sleep s => simp [bit_of] at hv
  · intro h
    exact ⟨_, h, by simp [bit_of]⟩

theorem namespace_of_injective :
    ∀ t1 ∈ supported_types, ∀ t2 ∈ supported_types,
      namespace_of t1 = namespace_of t2 → t1 = t2 := by
  decide

theorem enable_event_calls (k : Kernel) (input_type0 : Nat) (fd : Int) (t c : Nat) (w : World)
    (ns : Nat) (hns : namespace_of t = some ns) :
    calls (enable_event k input_type0 fd t c w).2.trace =
      calls w.trace
        ++ (if t = EV_KEY then [Syscall.sys_ioctl fd UI_SET_EVBIT (.int EV_REP)] else [])
        ++ [Syscall.sys_ioctl fd UI_SET_EVBIT (.int t), Syscall.sys_ioctl fd ns (.int c)] := by
  unfold namespace_of at hns
  unfold enable_event
  split_ifs at hns ⊢ <;>
    simp_all [ioctl, syscall, calls]

theorem declared_evbits_enable_key (k : Kernel) (input_type0 : Nat) (fd : Int) (c : Nat)
    (w : World) :
    declared_evbits fd (enable_event k input_type0 fd EV_KEY c w).2.trace =
      declared_evbits fd w.trace ∪ {EV_KEY, EV_REP} := by
  ext v
  have hne : UI_SET_KEYBIT ≠ UI_SET_EVBIT := by decide
  simp only [declared_evbits, mem_declared_bits, Finset.mem_union, Finset.mem_insert,
    Finset.mem_singleton]
  rw [enable_event_calls k input_type0 fd EV_KEY c w UI_SET_KEYBIT (by decide)]
  simp [hne]
  tauto

theorem declared_evbits_enable_keys (k : Kernel) (input_type0 : Nat) (fd : Int)
    (codes : List Nat) (hne : codes ≠ []) (w : World) :
    declared_evbits fd (enable_keys k input_type0 fd codes w).trace =
      declared_evbits fd w.trace ∪ {EV_KEY, EV_REP} := by
  induction codes generalizing w with
  | nil => exact absurd rfl hne
  | cons c cs ih =>
    cases cs with
    | nil => simpa [enable_keys] using declared_evbits_enable_key k input_type0 fd c w
    | cons d ds =>
      have h := ih (by simp) (enable_event k input_type0 fd EV_KEY c w).2
      rw [declared_evbits_enable_key] at h
      simp only [enable_keys] at h ⊢
      rw [h, Finset.union_assoc, Finset.union_self]

theorem send_event_trace (k : Kernel) (fd : Int) (t c : Nat) (v : Int) (w : World) :
    (send_event k fd t c v w).2.trace =
      w.trace ++ [⟨.sys_write fd ⟨0, 0, t, c, v⟩, k w.trace (.sys_write fd ⟨0, 0, t, c, v⟩)⟩] :=
  rfl

theorem send_events_calls (k : Kernel) (fd : Int) (es : List (Nat × Nat × Int)) (w : World) :
    calls (send_events k fd es w).trace =
      calls w.trace ++ es.map (fun e => Syscall.sys_write fd ⟨0, 0, e.1, e.2.1, e.2.2⟩) := by
  induction es generalizing w with
  | nil => simp [send_events]
  | cons e es ih =>
    simp only [send_events]
    rw [ih, send_event_trace, calls_append]
    simp [calls]

theorem send_events_oob (k : Kernel) (fd : Int) (es : List (Nat × Nat × Int)) (w : World) :
    (send_events k fd es w).oob = w.oob := by
  induction es generalizing w with
  | nil => rfl
  | cons e es ih =>
    simp only [send_events]
    rw [ih]
    rfl

theorem store_byte_append (pre zs oob : List Nat) (z b : Nat) :
    store_byte (pre ++ z :: zs, oob) pre.length b = (pre ++ b :: zs, oob) := by
  simp [store_byte]

theorem strcpy_in_bounds (pre oob src zs : List Nat) (h : src.length < zs.length) :
    strcpy (pre ++ zs, oob) pre.length src =
      (pre ++ src ++ [0] ++ zs.drop (src.length + 1), oob) := by
  induction src generalizing pre zs with
  | nil =>
    cases zs with
    | nil => simp at h
    | cons z zs => simp [strcpy, store_byte_append]
  | cons ch rest ih =>
    cases zs with
    | nil => simp at h
    | cons z zs =>
      have hlen : rest.length < zs.length := by simpa using h
      have hstep := ih (pre ++ [ch]) zs hlen
      simp only [List.length_append, List.length_singleton, List.append_assoc,
        List.singleton_append] at hstep
      simp only [strcpy, store_byte_append, hstep]
      simp

theorem usetup_before_copy :
    store_u16 (store_u16 (store_u16 (memset 0 sizeof_uinput_setup) off_bustype BUS_USB)
      off_vendor 0x0) off_product 0x0 =
      [BUS_USB, 0, 0, 0, 0, 0, 0, 0] ++ List.replicate (UINPUT_MAX_NAME_SIZE + 4) 0 := by
  decide

theorem strcpy_name_fits (name oob : List Nat) (hfit : name.length + 1 ≤ UINPUT_MAX_NAME_SIZE) :
    strcpy (store_u16 (store_u16 (store_u16 (memset 0 sizeof_uinput_setup) off_bustype BUS_USB)
      off_vendor 0x0) off_product 0x0, oob) off_name name = (setup_image name, oob) := by
  rw [usetup_before_copy]
  have h := strcpy_in_bounds [BUS_USB, 0, 0, 0, 0, 0, 0, 0] oob name
    (List.replicate (UINPUT_MAX_NAME_SIZE + 4) 0)
    (by simp only [List.length_replicate]; omega)
  have hoff : ([BUS_USB, 0, 0, 0, 0, 0, 0, 0] : List Nat).length = off_name := rfl
  rw [hoff] at h
  rw [h, setup_image]
  have hrep : List.replicate (UINPUT_MAX_NAME_SIZE + 4 - name.length) 0 =
      0 :: List.replicate (UINPUT_MAX_NAME_SIZE + 4 - (name.length + 1)) 0 := by
    rw [← List.replicate_succ]
    congr 1
    omega
  rw [hrep]
  simp [List.drop_replicate]

theorem setup_image_length (name : List Nat) (hfit : name.length + 1 ≤ UINPUT_MAX_NAME_SIZE) :
    (setup_image name).length = sizeof_uinput_setup := by
  simp only [setup_image, List.length_append, List.length_replicate, List.length_cons,
    List.length_nil, sizeof_uinput_setup]
  omega

theorem setup_image_name_field (name : List Nat)
    (hfit : name.length + 1 ≤ UINPUT_MAX_NAME_SIZE) :
    name_field (setup_image name) =
      name ++ List.replicate (UINPUT_MAX_NAME_SIZE - name.length) 0 := by
  unfold name_field setup_image off_name
  simp only [List.append_assoc, List.cons_append, List.nil_append, List.drop_succ_cons, List.drop_zero]
  rw [List.take_append_eq_append_take]
  have h1 : List.take UINPUT_MAX_NAME_SIZE name = name := List.take_of_length_le (by omega)
  rw [h1, List.take_replicate]
  congr 2
  omega

theorem c_string_padded (name : List Nat) (n : Nat) (hstr : ∀ b ∈ name, b ≠ 0) (hn : 0 < n):
    c_string (name ++ List.replicate n 0) = name := by
  unfold c_string
  induction name with
  | nil => 
    cases n with
    | zero => omega
    | succ n => simp [List.replicate_succ]
  | cons b bs ih =>
    have hb : b ≠ 0 := hstr b (by simp)
    simp only [List.cons_append]
    rw [List.takeWhile_cons_of_pos (by simpa using hb)]
    rw [ih (fun c hc => hstr c (by simp [hc]))]

theorem setup_image_getD_tail (name : List Nat) (i : Nat) (hi : 8 + name.length ≤ i) :
    (setup_image name).getD i 0 = 0 := by
  unfold setup_image
  have hlen : ([BUS_USB, 0, 0, 0, 0, 0, 0, 0] ++ name).length ≤ i := by
    simp only [List.length_append, List.length_cons, List.length_nil]
    omega
  rw [List.getD_append_right _ _ _ _ hlen]
  simp only [List.getD_eq_getElem?_getD, List.getElem?_replicate]
  split <;> rfl

theorem create_device_world (k : Kernel) (fd : Int) (name : List Nat) (w : World)
    (hfit : name.length + 1 ≤ UINPUT_MAX_NAME_SIZE) :
    calls (create_device k fd name w).2.trace =
        calls w.trace ++
          [Syscall.sys_ioctl fd UI_DEV_SETUP (.ptr (setup_image name)),
           Syscall.sys_ioctl fd UI_DEV_CREATE .absent,
           Syscall.sys_sleep 1] ∧
      (create_device k fd name w).2.oob = w.oob := by
  unfold create_device
  simp only [strcpy_name_fits name w.oob hfit]
  simp [ioctl, sleep, syscall, calls]

theorem enable_event_last (k : Kernel) (input_type0 : Nat) (fd : Int) (t c : Nat) (w : World) :
    (enable_event k input_type0 fd t c w).2.trace.getLast? =
      some ⟨.sys_ioctl fd ((namespace_of t).getD input_type0) (.int c),
        (enable_event k input_type0 fd t c w).1⟩ := by
  unfold enable_event namespace_of
  split_ifs <;> simp [ioctl, syscall]

/-! ## Claims -/

/-- C1: for every handle, code `c` and supported event type `t`, `enable_event(fd, t, c)`
issues (after the key-repeat call, for `EV_KEY` only) exactly the type-bit call
`UI_SET_EVBIT` with argument `t` and then, last, the code-bit call with argument `c` in
the namespace the table assigns to `t`; the table is injective on the supported types;
stores nothing out of bounds; and afterwards the capability `(t, c)` is in the declared
set of the handle. -/
theorem enable_event_declares_capability (k : Kernel) (input_type0 : Nat) (fd : Int)
    (t c : Nat) (w : World) (ht : t ∈ supported_types) :
    ∃ ns, namespace_of t = some ns ∧
      calls (enable_event k input_type0 fd t c w).2.trace =
        calls w.trace
          ++ (if t = EV_KEY then [Syscall.sys_ioctl fd UI_SET_EVBIT (.int EV_REP)] else [])
          ++ [Syscall.sys_ioctl fd UI_SET_EVBIT (.int t), Syscall.sys_ioctl fd ns (.int c)] ∧
      (∀ t1 ∈ supported_types, ∀ t2 ∈ supported_types,
        namespace_of t1 = namespace_of t2 → t1 = t2) ∧
      (enable_event k input_type0 fd t c w).2.oob = w.oob ∧
      capability_present fd t c (enable_event k input_type0 fd t c w).2.trace := by
  have hall : ∀ u ∈ supported_types, (namespace_of u).isSome = true := by decide
  have hsome : ∃ ns, namespace_of t = some ns := Option.isSome_iff_exists.mp (hall t ht)
  obtain ⟨ns, hns⟩ := hsome
  have hcalls := enable_event_calls k input_type0 fd t c w ns hns
  refine ⟨ns, hns, hcalls, namespace_of_injective, ?_, ?_, ns, hns, ?_⟩
  · unfold enable_event
    split_ifs <;> simp [ioctl, syscall]
  · rw [declared_evbits, mem_declared_bits, hcalls]
    simp
  · rw [mem_declared_bits, hcalls]
    simp

/-- C1 at a concrete input: relative motion, code 0, handle 3. -/
theorem enable_event_declares_capability_witness :
    EV_REL ∈ supported_types ∧
      capability_present 3 EV_REL 0 (enable_event kernel_ok 0 3 EV_REL 0 World.init).2.trace :=
  ⟨by decide,
    (enable_event_declares_capability kernel_ok 0 3 EV_REL 0 World.init (by decide)).elim
      (fun _ h => h.2.2.2.2)⟩

/-- C2: with the declared event-type bits read as a set, enabling any non-empty sequence
of key codes leaves the key-repeat bit `EV_REP` declared, and the set of declared type
bits is the one a single such call yields: the bits declared before together with
`EV_KEY` and `EV_REP`, hence exactly those two on a fresh handle. -/
theorem enable_keys_repeat_idempotent (k : Kernel) (input_type0 : Nat) (fd : Int)
    (codes : List Nat) (w : World) (hne : codes ≠ []) :
    EV_REP ∈ declared_evbits fd (enable_keys k input_type0 fd codes w).trace ∧
      (∀ c, declared_evbits fd (enable_keys k input_type0 fd codes w).trace =
        declared_evbits fd (enable_event k input_type0 fd EV_KEY c w).2.trace) ∧
      declared_evbits fd (enable_keys k input_type0 fd codes World.init).trace =
        {EV_KEY, EV_REP} := by
  refine ⟨?_, ?_, ?_⟩
  · rw [declared_evbits_enable_keys k input_type0 fd codes hne w]
    simp
  · intro c
    rw [declared_evbits_enable_keys k input_type0 fd codes hne w,
      declared_evbits_enable_key]
  · rw [declared_evbits_enable_keys k input_type0 fd codes hne World.init]
    simp [declared_evbits, declared_bits, calls, World.init]

/-- C2 at a concrete input: the three key codes 30, 31, 32 on handle 3. -/
theorem enable_keys_repeat_idempotent_witness :
    [30, 31, 32] ≠ ([] : List Nat) ∧
      declared_evbits 3 (enable_keys kernel_ok 0 3 [30, 31, 32] World.init).trace =
        {EV_KEY, EV_REP} :=
  ⟨by decide,
    (enable_keys_repeat_idempotent kernel_ok 0 3 [30, 31, 32] World.init (by decide)).2.2⟩

/-- C3: for every handle and every list of (type, code, value) triples, `send_event` on
each triple in order followed by `flush` adds exactly `len + 1` calls to the trace, all
of them writes on that handle: one record per triple, in order, carrying that type, code
and value with both timestamp fields zero, then the record `(EV_SYN, SYN_REPORT, 0)`;
nothing is stored out of bounds.  The scenario press 30, flush, release 30, flush writes
the four expected records. -/
theorem send_events_then_flush (k : Kernel) (fd : Int) (es : List (Nat × Nat × Int))
    (w : World) :
    calls (flush k fd (send_events k fd es w)).2.trace =
        calls w.trace
          ++ es.map (fun e => Syscall.sys_write fd ⟨0, 0, e.1, e.2.1, e.2.2⟩)
          ++ [Syscall.sys_write fd ⟨0, 0, EV_SYN, SYN_REPORT, 0⟩] ∧
      (flush k fd (send_events k fd es w)).2.trace.length = w.trace.length + (es.length + 1) ∧
      (flush k fd (send_events k fd es w)).2.oob = w.oob ∧
      calls (flush k fd (send_event k fd EV_KEY 30 0
          (flush k fd (send_event k fd EV_KEY 30 1 w).2).2).2).2.trace =
        calls w.trace ++
          [Syscall.sys_write fd ⟨0, 0, EV_KEY, 30, 1⟩,
           Syscall.sys_write fd ⟨0, 0, EV_SYN, SYN_REPORT, 0⟩,
           Syscall.sys_write fd ⟨0, 0, EV_KEY, 30, 0⟩,
           Syscall.sys_write fd ⟨0, 0, EV_SYN, SYN_REPORT, 0⟩] := by
  have h : calls (flush k fd (send_events k fd es w)).2.trace =
      calls w.trace
        ++ es.map (fun e => Syscall.sys_write fd ⟨0, 0, e.1, e.2.1, e.2.2⟩)
        ++ [Syscall.sys_write fd ⟨0, 0, EV_SYN, SYN_REPORT, 0⟩] := by
    unfold flush
    rw [send_event_trace, calls_append, send_events_calls]
    simp [calls]
  refine ⟨h, ?_, ?_, ?_⟩
  · have hl := congrArg List.length h
    simpa [calls, Nat.add_assoc] using hl
  · unfold flush
    exact send_events_oob k fd es w
  · simp [flush, send_event_trace, calls]

/-- C4: for every handle, `flush(fd)` has the effect of
`send_event(fd, EV_SYN, SYN_REPORT, 0)`: the two yield the same result and the same
world, which is the old one with a single call appended, the write of the record
`(EV_SYN, SYN_REPORT, 0)` with zero timestamp on that handle. -/
theorem flush_eq_send_sync (k : Kernel) (fd : Int) (w : World) :
    flush k fd w = send_event k fd EV_SYN SYN_REPORT 0 w ∧
      (flush k fd w).2.trace =
        w.trace ++ [⟨.sys_write fd ⟨0, 0, EV_SYN, SYN_REPORT, 0⟩,
          k w.trace (.sys_write fd ⟨0, 0, EV_SYN, SYN_REPORT, 0⟩)⟩] ∧
      (flush k fd w).2.oob = w.oob :=
  ⟨rfl, rfl, rfl⟩

/-- C5: for every handle and every name that fits the name buffer (terminator included),
`create_device(fd, name)` issues `UI_DEV_SETUP` with an identity image of the size of
`struct uinput_setup` whose name buffer holds the name followed by zero bytes (so the
string read back is the name), whose bus type is USB, whose vendor, product, version and
`ff_effects_max` are zero, then issues `UI_DEV_CREATE` on the same handle, then sleeps one
second; these are its only calls and nothing is stored out of bounds. -/
theorem create_device_setup_create_pause (k : Kernel) (fd : Int) (name : List Nat) (w : World)
    (hfit : name.length + 1 ≤ UINPUT_MAX_NAME_SIZE) (hstr : ∀ b ∈ name, b ≠ 0) :
    calls (create_device k fd name w).2.trace =
        calls w.trace ++
          [Syscall.sys_ioctl fd UI_DEV_SETUP (.ptr (setup_image name)),
           Syscall.sys_ioctl fd UI_DEV_CREATE .absent,
           Syscall.sys_sleep 1] ∧
      (setup_image name).length = sizeof_uinput_setup ∧
      name_field (setup_image name) =
        name ++ List.replicate (UINPUT_MAX_NAME_SIZE - name.length) 0 ∧
      c_string (name_field (setup_image name)) = name ∧
      u16_at (setup_image name) off_bustype = BUS_USB ∧
      u16_at (setup_image name) off_vendor = 0 ∧
      u16_at (setup_image name) off_product = 0 ∧
      u16_at (setup_image name) off_version = 0 ∧
      u32_at (setup_image name) off_ff_effects_max = 0 ∧
      (create_device k fd name w).2.oob = w.oob := by
  have hw := create_device_world k fd name w hfit
  have htail : ∀ i, 8 + name.length ≤ i → (setup_image name).getD i 0 = 0 :=
    setup_image_getD_tail name
  refine ⟨hw.1, setup_image_length name hfit, setup_image_name_field name hfit, ?_,
    ?_, ?_, ?_, ?_, ?_, hw.2⟩
  · rw [setup_image_name_field name hfit]
    exact c_string_padded name _ hstr (by omega)
  · simp [u16_at, setup_image, off_bustype]
  · simp [u16_at, setup_image, off_vendor]
  · simp [u16_at, setup_image, off_product]
  · simp [u16_at, setup_image, off_version]
  · unfold u32_at off_ff_effects_max
    rw [htail _ (by omega), htail _ (by omega), htail _ (by omega), htail _ (by omega)]

/-- C5 at a concrete input: the name "test-kbd" on handle 3. -/
theorem create_device_setup_create_pause_witness :
    ([116, 101, 115, 116, 45, 107, 98, 100] : List Nat).length + 1 ≤ UINPUT_MAX_NAME_SIZE ∧
      (∀ b ∈ ([116, 101, 115, 116, 45, 107, 98, 100] : List Nat), b ≠ 0) ∧
      c_string (name_field (setup_image [116, 101, 115, 116, 45, 107, 98, 100])) =
        [116, 101, 115, 116, 45, 107, 98, 100] :=
  ⟨by decide, by decide,
    (create_device_setup_create_pause kernel_ok 3 [116, 101, 115, 116, 45, 107, 98, 100]
      World.init (by decide) (by decide)).2.2.2.1⟩

/-- C6 as stated fails: under a kernel that rejects the type-bit declaration
`UI_SET_EVBIT` and accepts the code-bit declaration, `enable_event(3, EV_REL, 0)` issued a
call that failed and still returns success. -/
theorem enable_event_hides_evbit_failure :
    ¬ reports_every_failure World.init
      (enable_event kernel_evbit_rejected 0 3 EV_REL 0 World.init) := by
  unfold reports_every_failure
  decide

/-- C6 amended: for every handle, supported type and code, the result of `enable_event`
is the result of its last control call, the event-code declaration in the namespace of
the type: it is a failure exactly when that call failed. -/
theorem enable_event_returns_code_bit_result (k : Kernel) (input_type0 : Nat) (fd : Int)
    (t c : Nat) (w : World) (ht : t ∈ supported_types) :
    ∃ ns, namespace_of t = some ns ∧
      (enable_event k input_type0 fd t c w).2.trace.getLast? =
        some ⟨.sys_ioctl fd ns (.int c), (enable_event k input_type0 fd t c w).1⟩ ∧
      (failed (enable_event k input_type0 fd t c w).1 ↔
        ∃ r, (enable_event k input_type0 fd t c w).2.trace.getLast? =
          some ⟨.sys_ioctl fd ns (.int c), r⟩ ∧ failed r) := by
  have hall : ∀ u ∈ supported_types, (namespace_of u).isSome = true := by decide
  obtain ⟨ns, hns⟩ := Option.isSome_iff_exists.mp (hall t ht)
  have hlast := enable_event_last k input_type0 fd t c w
  rw [hns, Option.getD_some] at hlast
  refine ⟨ns, hns, hlast, ?_, ?_⟩
  · intro hf
    exact ⟨_, hlast, hf⟩
  · rintro ⟨r, hr, hf⟩
    rw [hlast] at hr
    simp only [Option.some.injEq, Entry.mk.injEq, true_and] at hr
    rw [hr]
    exact hf

/-- C6 amended, at a concrete input: absolute axis, code 1, handle 3, under a kernel that
rejects the type-bit declaration. -/
theorem enable_event_returns_code_bit_result_witness :
    EV_ABS ∈ supported_types ∧
      ∃ ns, namespace_of EV_ABS = some ns ∧
        (enable_event kernel_evbit_rejected 0 3 EV_ABS 1 World.init).2.trace.getLast? =
          some ⟨.sys_ioctl 3 ns (.int 1),
            (enable_event kernel_evbit_rejected 0 3 EV_ABS 1 World.init).1⟩ :=
  ⟨by decide,
    (enable_event_returns_code_bit_result kernel_evbit_rejected 0 3 EV_ABS 1 World.init
      (by decide)).elim (fun ns h => ⟨ns, h.1, h.2.1⟩)⟩

/-- C7 as stated fails: under a kernel that rejects `UI_DEV_SETUP` and accepts
`UI_DEV_CREATE`, `create_device(3, "test-kbd")` issued a call that failed and still
returns success. -/
theorem create_device_hides_setup_failure :
    ¬ reports_every_failure World.init
      (create_device kernel_setup_rejected 3 [116, 101, 115, 116, 45, 107, 98, 100]
        World.init) := by
  unfold reports_every_failure
  decide

/-- C7 amended: for every handle and name, `create_device` issues the setup call, the
creation call and the pause, and its result is the result of the creation call
`UI_DEV_CREATE`: it is a failure exactly when the creation call failed. -/
theorem create_device_returns_create_result (k : Kernel) (fd : Int) (name : List Nat)
    (w : World) :
    ∃ img rs rz, (create_device k fd name w).2.trace =
      w.trace ++
        [⟨.sys_ioctl fd UI_DEV_SETUP (.ptr img), rs⟩,
         ⟨.sys_ioctl fd UI_DEV_CREATE .absent, (create_device k fd name w).1⟩,
         ⟨.sys_sleep 1, rz⟩] := by
  have h : ∃ img rs rz, (create_device k fd name w).2.trace =
      ((w.trace ++ [⟨.sys_ioctl fd UI_DEV_SETUP (.ptr img), rs⟩])
        ++ [⟨.sys_ioctl fd UI_DEV_CREATE .absent, (create_device k fd name w).1⟩])
        ++ [⟨.sys_sleep 1, rz⟩] := ⟨_, _, _, rfl⟩
  obtain ⟨img, rs, rz, h⟩ := h
  exact ⟨img, rs, rz, by rw [h]; simp⟩

/-- C8 as stated fails: the write of `send_event(3, EV_KEY, 30, 1)` (and of `flush(3)`)
fails under one kernel and succeeds under another, and the caller gets the same thing
back in both cases, so the caller cannot tell the failed write from the successful one. -/
theorem send_event_drops_write_failure :
    (∃ e ∈ (send_event kernel_write_rejected 3 EV_KEY 30 1 World.init).2.trace, failed e.ret) ∧
      (∀ e ∈ (send_event kernel_ok 3 EV_KEY 30 1 World.init).2.trace, ¬ failed e.ret) ∧
      (send_event kernel_write_rejected 3 EV_KEY 30 1 World.init).1 =
        (send_event kernel_ok 3 EV_KEY 30 1 World.init).1 ∧
      (∃ e ∈ (flush kernel_write_rejected 3 World.init).2.trace, failed e.ret) ∧
      (∀ e ∈ (flush kernel_ok 3 World.init).2.trace, ¬ failed e.ret) ∧
      (flush kernel_write_rejected 3 World.init).1 = (flush kernel_ok 3 World.init).1 := by
  decide

/-- C8 amended: `send_event` and `flush` are fire-and-forget.  Each issues exactly one
call, the write of its record, whose result is dropped: whatever two kernels answer, the
caller gets the same (empty) result and the same calls were made. -/
theorem send_event_fire_and_forget (k1 k2 : Kernel) (fd : Int) (t c : Nat) (v : Int)
    (w : World) :
    (send_event k1 fd t c v w).2.trace =
        w.trace ++ [⟨.sys_write fd ⟨0, 0, t, c, v⟩, k1 w.trace (.sys_write fd ⟨0, 0, t, c, v⟩)⟩] ∧
      (send_event k1 fd t c v w).1 = (send_event k2 fd t c v w).1 ∧
      calls (send_event k1 fd t c v w).2.trace = calls (send_event k2 fd t c v w).2.trace ∧
      (flush k1 fd w).1 = (flush k2 fd w).1 ∧
      calls (flush k1 fd w).2.trace = calls (flush k2 fd w).2.trace := by
  refine ⟨rfl, rfl, ?_, rfl, ?_⟩
  · simp [send_event_trace, calls]
  · simp [flush, send_event_trace, calls]

set_option maxRecDepth 16000 in
/-- C9 on the code: `create_device` never fails because of the name (under an accepting
kernel it returns 0 for every name), and for a name of 84 characters, 85 bytes with its
terminator, it reports success, passes to `UI_DEV_SETUP` an image whose `ff_effects_max`
field is overwritten with name characters, and stores the terminator past the end of
`struct uinput_setup`. -/
theorem create_device_copies_past_name_buffer :
    (∀ (fd : Int) (name : List Nat) (w : World), (create_device kernel_ok fd name w).1 = 0) ∧
      UINPUT_MAX_NAME_SIZE < (List.replicate 84 97).length + 1 ∧
      ¬ failed (create_device kernel_ok 3 (List.replicate 84 97) World.init).1 ∧
      (create_device kernel_ok 3 (List.replicate 84 97) World.init).2.oob = [0] ∧
      calls (create_device kernel_ok 3 (List.replicate 84 97) World.init).2.trace =
        [Syscall.sys_ioctl 3 UI_DEV_SETUP
            (.ptr ([BUS_USB, 0, 0, 0, 0, 0, 0, 0] ++ List.replicate 84 97)),
          Syscall.sys_ioctl 3 UI_DEV_CREATE .absent,
          Syscall.sys_sleep 1] ∧
      u32_at ([BUS_USB, 0, 0, 0, 0, 0, 0, 0] ++ List.replicate 84 97) off_ff_effects_max =
        0x61616161 := by
  refine ⟨fun fd name w => rfl, by decide, by decide, by decide, by decide, by decide⟩

/-- C10 on the code: for every type the last control call of `enable_event` carries the
opcode found in `input_type`, which for a type outside the switch is the indeterminate
initial content of that variable; `EV_SYN`, `EV_REP` and `EV_PWR` are such types; and with
the same arguments the result changes with that content. -/
theorem enable_event_unsupported_type_indeterminate :
    (∀ (k : Kernel) (input_type0 : Nat) (fd : Int) (t c : Nat) (w : World),
      (enable_event k input_type0 fd t c w).2.trace.getLast? =
        some ⟨.sys_ioctl fd ((namespace_of t).getD input_type0) (.int c),
          (enable_event k input_type0 fd t c w).1⟩) ∧
      namespace_of EV_SYN = none ∧ namespace_of EV_REP = none ∧ namespace_of EV_PWR = none ∧
      calls (enable_event kernel_evbit_rejected UI_DEV_CREATE 3 EV_SYN 0 World.init).2.trace =
        [Syscall.sys_ioctl 3 UI_SET_EVBIT (.int EV_SYN),
         Syscall.sys_ioctl 3 UI_DEV_CREATE (.int 0)] ∧
      (enable_event kernel_evbit_rejected UI_SET_EVBIT 3 EV_SYN 0 World.init).1 = -1 ∧
      (enable_event kernel_evbit_rejected UI_SET_KEYBIT 3 EV_SYN 0 World.init).1 = 0 := by
  refine ⟨enable_event_last, by decide, by decide, by decide, by decide, by decide, by decide⟩

end Pewinput
